import Mathlib

/-!
# Verification of the mmapurl demand-paging engine

A shallow embedding of the Rust sources of `mmapurl` (src/heuristics.rs,
src/userfaultfd.rs, src/userfaultfd_dummy.rs, src/mmaputil.rs, src/capi.rs)
together with proofs about the embedded definitions.

Machine integers (`usize`, `u64`) are modelled as `Nat`; none of the
quantities involved approach 2^64 on the stated domains, and subtraction
sites in the source are guarded the same way they are here.
-/

namespace Mmapurl

/-- Page size. The source queries `sysconf(_SC_PAGESIZE)` at runtime; the
spec and the sources' tests assume the standard 4 KiB page, which we fix. -/
def PAGESIZE_USIZE : Nat := 4096

/-- From src/mmaputil.rs, `round_up_to_pagesize`. -/
def round_up_to_pagesize (nbytes : Nat) : Nat :=
  if nbytes % PAGESIZE_USIZE = 0 then nbytes
  else nbytes + (PAGESIZE_USIZE - nbytes % PAGESIZE_USIZE)

/-- From src/mmaputil.rs, `round_down_to_pagesize`. -/
def round_down_to_pagesize (nbytes : Nat) : Nat :=
  if nbytes % PAGESIZE_USIZE = 0 then nbytes
  else nbytes - nbytes % PAGESIZE_USIZE

-- Constants from src/heuristics.rs.
def LEVEL1_SLICE_SIZE : Nat := 64

def LEVEL2_SLICE_SIZE : Nat := 8192

def LEVEL1_READAHEAD : Nat := 16

def LEVEL2_READAHEAD : Nat := 2

def MAX_LOADED_PAGES : Nat := 32768

def NUM_PAGES_TO_GO_BELOW_MAX_LOADED_PAGES_ON_EVICT : Nat := 500

/-- From src/heuristics.rs, `struct Slice`: the set of loaded pages inside
one slice, plus the slice capacity in pages. `BTreeSet<usize>` is modelled
as `Finset Nat`. -/
structure Slice where
  loaded_pages : Finset Nat
  num_pages : Nat
  deriving DecidableEq

namespace Slice

/-- `Slice::new`. -/
def new (num_pages : Nat) : Slice := ⟨∅, num_pages⟩

/-- `Slice::remove_page`. -/
def remove_page (s : Slice) (page_number : Nat) : Slice :=
  { s with loaded_pages := s.loaded_pages.erase page_number }

/-- `Slice::add_page`. -/
def add_page (s : Slice) (page_number : Nat) : Slice :=
  { s with loaded_pages := insert page_number s.loaded_pages }

/-- `Slice::would_fill`. -/
def would_fill (s : Slice) (page_number : Nat) : Bool :=
  if page_number ∈ s.loaded_pages then false
  else if s.loaded_pages.card + 1 = s.num_pages then true
  else false

end Slice

/-- `BTreeMap<usize, Slice>` modelled as a total function to `Option`. -/
def SliceMap : Type := Nat → Option Slice

/-- Reads a key, substituting the freshly inserted `Slice::new sz` when the
key is absent: the value `entry(k).or_insert_with(|| Slice::new(sz))`
exposes to its caller. -/
def SliceMap.get_or (m : SliceMap) (k sz : Nat) : Slice :=
  (m k).getD (Slice.new sz)

/-- `entry(k).or_insert_with(|| Slice::new(sz))` followed by an in-place
mutation `f` of the entry. -/
def SliceMap.adjust (m : SliceMap) (k sz : Nat) (f : Slice → Slice) : SliceMap :=
  fun j => if j = k then some (f (m.get_or k sz)) else m j

/-- The loaded-pages set that key `k` of the map exposes (absent keys read
as the empty freshly-inserted slice). -/
def SliceMap.loaded (m : SliceMap) (k sz : Nat) : Finset Nat :=
  (m.get_or k sz).loaded_pages

/-- From src/heuristics.rs, `struct PageHeuristics`. The `VecDeque` is a
`List` with the head at the front (`pop_front` = head, `push_back` =
append at the end). -/
structure PageHeuristics where
  level1slices : SliceMap
  level2slices : SliceMap
  evict_queue : List Nat

namespace PageHeuristics

/-- `PageHeuristics::new`. -/
def new : PageHeuristics := ⟨fun _ => none, fun _ => none, []⟩

/-- One iteration of the loop body of `mark_pages_as_read`. -/
def markPage (h : PageHeuristics) (pagenum : Nat) : PageHeuristics :=
  let slice1num := pagenum / LEVEL1_SLICE_SIZE
  let slice2num := pagenum / LEVEL2_SLICE_SIZE
  let slice1page := pagenum % LEVEL1_SLICE_SIZE
  let slice2page := pagenum % LEVEL2_SLICE_SIZE
  { level1slices :=
      h.level1slices.adjust slice1num LEVEL1_SLICE_SIZE (fun s => s.add_page slice1page)
    level2slices :=
      h.level2slices.adjust slice2num LEVEL2_SLICE_SIZE (fun s => s.add_page slice2page)
    evict_queue := h.evict_queue ++ [pagenum] }

/-- `PageHeuristics::mark_pages_as_read`: iterates `markPage` over the
half-open range `start_page..end_page`. -/
def mark_pages_as_read (h : PageHeuristics) (start_page end_page : Nat) : PageHeuristics :=
  (List.range' start_page (end_page - start_page)).foldl markPage h

/-- One iteration of the eviction loop body in `evict_pages_if_needed`:
pop the queue head, drop its residues from both level maps, record it in
the eviction set. The empty-queue branch mirrors the `unwrap()` panic
site; it is unreachable for the counts the caller uses. -/
def evictOne (h : PageHeuristics) (evictions : Finset Nat) :
    PageHeuristics × Finset Nat :=
  match h.evict_queue with
  | [] => (h, evictions)
  | page_evict :: rest =>
    let slice1num := page_evict / LEVEL1_SLICE_SIZE
    let slice2num := page_evict / LEVEL2_SLICE_SIZE
    let slice1page := page_evict % LEVEL1_SLICE_SIZE
    let slice2page := page_evict % LEVEL2_SLICE_SIZE
    ({ level1slices :=
         h.level1slices.adjust slice1num LEVEL1_SLICE_SIZE
           (fun s => s.remove_page slice1page)
       level2slices :=
         h.level2slices.adjust slice2num LEVEL2_SLICE_SIZE
           (fun s => s.remove_page slice2page)
       evict_queue := rest },
     insert page_evict evictions)

/-- The eviction loop, run `k` times. -/
def evictLoop : Nat → PageHeuristics → Finset Nat → PageHeuristics × Finset Nat
  | 0, h, evictions => (h, evictions)
  | k + 1, h, evictions =>
    let (h', evictions') := evictOne h evictions
    evictLoop k h' evictions'

/-- `PageHeuristics::evict_pages_if_needed`: the loop count
`evict_queue.len() - MAX_LOADED_PAGES + NUM_PAGES_TO_GO_BELOW…` is fixed
before the loop runs, exactly as the `for _ in 0..` in the source. -/
def evict_pages_if_needed (h : PageHeuristics) (evictions : Finset Nat) :
    PageHeuristics × Finset Nat :=
  if h.evict_queue.length > MAX_LOADED_PAGES then
    evictLoop
      (h.evict_queue.length - MAX_LOADED_PAGES
        + NUM_PAGES_TO_GO_BELOW_MAX_LOADED_PAGES_ON_EVICT)
      h evictions
  else (h, evictions)

/-- `PageHeuristics::evict_pages_if_needed2`. -/
def evict_pages_if_needed2 (h : PageHeuristics) : PageHeuristics × Finset Nat :=
  evict_pages_if_needed h ∅

end PageHeuristics

/-- From src/heuristics.rs, `roundup_slice1`. -/
def roundup_slice1 (offset sz : Nat) : Nat :=
  let final_page := (offset + sz - 1) / PAGESIZE_USIZE
  let level1_page := final_page % LEVEL1_SLICE_SIZE
  if level1_page = LEVEL1_SLICE_SIZE - 2 then sz
  else if level1_page = LEVEL1_SLICE_SIZE - 1 then
    sz + (LEVEL1_SLICE_SIZE - 1) * PAGESIZE_USIZE
  else
    sz + ((LEVEL1_SLICE_SIZE - 2) - level1_page) * PAGESIZE_USIZE

/-- From src/heuristics.rs, `extend_readahead1`. -/
def extend_readahead1 (offset minsz : Nat) : Nat :=
  let actual_read_sz := LEVEL1_READAHEAD * LEVEL1_SLICE_SIZE * PAGESIZE_USIZE
  let minsz_page := (offset + minsz - 1) / PAGESIZE_USIZE
  let minsz_level2_page := minsz_page % LEVEL2_SLICE_SIZE
  if minsz_level2_page = LEVEL2_SLICE_SIZE - 2 then minsz
  else if minsz_level2_page < LEVEL2_SLICE_SIZE - 2 then
    let missing_pages := (LEVEL2_SLICE_SIZE - 2) - minsz_level2_page
    let new_sz := minsz + missing_pages * PAGESIZE_USIZE
    if new_sz ≤ LEVEL1_READAHEAD * LEVEL1_SLICE_SIZE * PAGESIZE_USIZE then new_sz
    else roundup_slice1 offset actual_read_sz
  else roundup_slice1 offset actual_read_sz

/-- From src/heuristics.rs, `PageHeuristics::readahead_heuristic`. Returns
the recommended size together with the (map-populated) state, since
`entry(..).or_insert_with(..)` inserts empty slices for absent keys. -/
def PageHeuristics.readahead_heuristic (h : PageHeuristics)
    (offset actual_read_sz : Nat) : Nat × PageHeuristics :=
  let slice1num := offset / PAGESIZE_USIZE / LEVEL1_SLICE_SIZE
  let slice2num := offset / PAGESIZE_USIZE / LEVEL2_SLICE_SIZE
  let slice1page := (offset / PAGESIZE_USIZE) % LEVEL1_SLICE_SIZE
  let slice2page := (offset / PAGESIZE_USIZE) % LEVEL2_SLICE_SIZE
  let s1e := h.level1slices.get_or slice1num LEVEL1_SLICE_SIZE
  let level1slices' := h.level1slices.adjust slice1num LEVEL1_SLICE_SIZE id
  let sz1 :=
    if s1e.would_fill slice1page then extend_readahead1 offset PAGESIZE_USIZE
    else actual_read_sz
  let s2e := h.level2slices.get_or slice2num LEVEL2_SLICE_SIZE
  let level2slices' := h.level2slices.adjust slice2num LEVEL2_SLICE_SIZE id
  let sz2 :=
    if s2e.would_fill slice2page then
      roundup_slice1 offset
        (max sz1 (LEVEL2_READAHEAD * LEVEL2_SLICE_SIZE * PAGESIZE_USIZE))
    else sz1
  (sz2, { h with level1slices := level1slices', level2slices := level2slices' })

/-- Modelled from the spec's words (§4.1 "Exact rounding"): the case
definition of `roundup_slice1`, to be compared with the source version. -/
def roundup_slice1_specModel (offset sz : Nat) : Nat :=
  let final_page := (offset + sz - 1) / PAGESIZE_USIZE
  let k := final_page % 64
  if k = 62 then sz
  else if k = 63 then sz + 63 * PAGESIZE_USIZE
  else sz + (62 - k) * PAGESIZE_USIZE

/-! ## Page buffers (src/mmaputil.rs, `MMapPages`) -/

/-- From src/mmaputil.rs, `struct MMapPages`. The raw pointer is an
address modelled as `Nat`. -/
structure MMapPages where
  vehicle_page : Nat
  mmapped_size : Nat
  do_unmap : Bool
  deriving DecidableEq

/-- `MMapPages::new`: acquires a fresh anonymous mapping of
`round_up_to_pagesize nbytes` bytes with the unmap-on-drop flag set. The
kernel-chosen base address is a parameter. -/
def MMapPages.new (nbytes base : Nat) : MMapPages :=
  ⟨base, round_up_to_pagesize nbytes, true⟩

/-! ## Dummy handler (src/userfaultfd_dummy.rs) -/

/-- The byte contents of the successive one-page views yielded by
`DummyPageIterator::next`: while `cursor < mmapped_size`, the iterator
fills `base[cursor..cursor+PAGESIZE]` with `((i + offset) * 13) & 0xFF`
and yields that window, then advances `cursor` by one page. -/
def dummyIterBytes (mmapped_size offset cursor : Nat) : List (List Nat) :=
  if cursor < mmapped_size then
    ((List.range PAGESIZE_USIZE).map
        (fun i => ((cursor + i + offset) * 13) % 256))
      :: dummyIterBytes mmapped_size offset (cursor + PAGESIZE_USIZE)
  else []
termination_by mmapped_size - cursor
decreasing_by
  simp only [PAGESIZE_USIZE]
  omega

/-- The `MMapPages` records yielded by `DummyPageIterator::next`: views at
`base_page.vehicle_page.add(cursor)` of one page each, all with
`do_unmap = false`. -/
def dummyIterViews (base mmapped_size cursor : Nat) : List MMapPages :=
  if cursor < mmapped_size then
    ⟨base + cursor, PAGESIZE_USIZE, false⟩
      :: dummyIterViews base mmapped_size (cursor + PAGESIZE_USIZE)
  else []
termination_by mmapped_size - cursor
decreasing_by
  simp only [PAGESIZE_USIZE]
  omega

/-- From src/userfaultfd_dummy.rs, `MMapDummy::handle_userfault` for a
dummy of size `sz`: consult the heuristic, cap the read against the
object size, round up, allocate the backing page block (at kernel-chosen
address `base`), mark the read pages and evict. Returns the yielded page
contents, the yielded view records, the iterator's owning `base_page`,
the eviction set, and the final heuristic state. -/
def dummy_handle_userfault (h : PageHeuristics) (sz offset base : Nat) :
    List (List Nat) × List MMapPages × MMapPages × Finset Nat × PageHeuristics :=
  let res := h.readahead_heuristic offset PAGESIZE_USIZE
  let actual_read_sz := res.1
  let len := round_up_to_pagesize
    (if offset + actual_read_sz > sz then sz - offset else actual_read_sz)
  let page := MMapPages.new len base
  let h2 := res.2.mark_pages_as_read (offset / PAGESIZE_USIZE)
    ((offset + page.mmapped_size) / PAGESIZE_USIZE)
  let res2 := h2.evict_pages_if_needed2
  (dummyIterBytes page.mmapped_size offset 0,
   dummyIterViews base page.mmapped_size 0,
   page, res2.2, res2.1)

/-! ## Page installation (src/userfaultfd.rs, `pagefault_handle`) -/

/-- From src/userfaultfd.rs, `struct uffdio_copy`. -/
structure uffdio_copy where
  dst : Nat
  src : Nat
  len : Nat
  mode : Nat
  copy : Nat
  deriving DecidableEq

/-- The per-page `UFFDIO_COPY` arguments set by the outer loop of
`pagefault_handle` (src/userfaultfd.rs lines 363-370): for every page of
the batch, `src` and `len` come from the page while `dst` is the local
`offset_ptr`, which is never reassigned inside the function. Inner-loop
retries reuse these arguments unchanged (see `copy_loop`). -/
def pagefault_copy_args (offset_ptr : Nat) (pages : List MMapPages) :
    List uffdio_copy :=
  pages.map (fun page =>
    { dst := offset_ptr, src := page.vehicle_page, len := page.mmapped_size,
      mode := 0, copy := 0 })

/-- Linux `EAGAIN`. -/
def EAGAIN : Nat := 11

/-- Linux `EEXIST`. -/
def EEXIST : Nat := 17

/-- Outcome of the inner retry loop of `pagefault_handle` on a finite
trace of ioctl results. -/
inductive CopyLoopResult where
  | finished (rest : List (Option Nat))
  | panicked (errno : Nat)
  | exhausted
  deriving DecidableEq

/-- The inner `loop` of `pagefault_handle` (src/userfaultfd.rs lines
365-389), driven by a trace of ioctl outcomes (`none` = the ioctl
returned success, `some e` = it returned -1 with errno `e`). Returns the
list of argument records issued, one per consumed outcome, and how the
loop ended: `finished rest` when it hit `break` (only the `EEXIST` arm),
`panicked e` for any other errno, `exhausted` when the trace ran out with
the loop still running. Note the loop body has no exit on success. -/
def copy_loop (args : uffdio_copy) :
    List (Option Nat) → List uffdio_copy × CopyLoopResult
  | [] => ([], .exhausted)
  | none :: rest =>
    (args :: (copy_loop args rest).1, (copy_loop args rest).2)
  | some e :: rest =>
    if e = EAGAIN then (args :: (copy_loop args rest).1, (copy_loop args rest).2)
    else if e = EEXIST then ([args], .finished rest)
    else ([args], .panicked e)

/-! ## Region sizing (src/userfaultfd.rs, `mmap_with_userfault` and `MMap`) -/

/-- The size-relevant fields of `struct MMap<M>`. -/
structure MMapM where
  sz : Nat
  sz_unrounded : Nat

/-- The size computation of `mmap_with_userfault` (src/userfaultfd.rs
lines 168-170): keep the handler-reported size unrounded, substitute 1
for 0, round up to a page, and store both in the `MMap`. -/
def mmap_with_userfault_sizes (nbytes : Nat) : MMapM :=
  let nbytes_unrounded := nbytes
  let nbytes1 := if nbytes = 0 then 1 else nbytes
  { sz := round_up_to_pagesize nbytes1, sz_unrounded := nbytes_unrounded }

/-- `MMap::len`. -/
def MMapM.len (m : MMapM) : Nat := m.sz_unrounded

/-- `MMap::as_slice::<T>` yields a slice of `sz_unrounded / size_of::<T>`
elements when the type size divides evenly, and panics (`none`) otherwise. -/
def MMapM.as_slice_len (m : MMapM) (typesize : Nat) : Option Nat :=
  if m.sz_unrounded % typesize = 0 then some (m.sz_unrounded / typesize) else none

/-! ## C-ABI registry (src/capi.rs, `munmap_s3`) -/

/-- The key set of the process-wide `mmapped_s3s` registry
(`BTreeMap<u64, MMap<MMapS3>>`); only the keys matter to `munmap_s3`'s
control flow, the mapped `MMap` values are torn down on removal. -/
abbrev Registry : Type := Finset Nat

/-- From src/capi.rs, `munmap_s3`: returns the C return code and the
registry after the call. -/
def munmap_s3 (reg : Registry) (ptr : Nat) : Int × Registry :=
  if ptr ∈ reg then (0, reg.erase ptr) else (-1, reg)

/-- A heuristic state whose queue length 32769 exceeds the resident cap,
used to exercise the eviction branch. -/
def evictTriggerState : PageHeuristics :=
  ⟨fun _ => none, fun _ => none, List.range 32769⟩

/-! ## Residency invariants (C5) -/

/-- The claimed invariant (spec §3, invariant (a)): page `p`'s residue is
in the level-1 set of slice `p/64` iff its residue is in the level-2 set
of slice `p/8192` iff `p` appears somewhere in the eviction queue. -/
def HeuristicsInv (h : PageHeuristics) : Prop :=
  ∀ p : Nat,
    (p % LEVEL1_SLICE_SIZE ∈
        h.level1slices.loaded (p / LEVEL1_SLICE_SIZE) LEVEL1_SLICE_SIZE ↔
      p % LEVEL2_SLICE_SIZE ∈
        h.level2slices.loaded (p / LEVEL2_SLICE_SIZE) LEVEL2_SLICE_SIZE) ∧
    (p % LEVEL1_SLICE_SIZE ∈
        h.level1slices.loaded (p / LEVEL1_SLICE_SIZE) LEVEL1_SLICE_SIZE ↔
      p ∈ h.evict_queue)

/-- The weakened invariant that the code does maintain: the two level maps
stay synchronized, and membership in them implies presence in the queue
(but not conversely, because the queue may hold duplicates). -/
def HeuristicsInvWeak (h : PageHeuristics) : Prop :=
  ∀ p : Nat,
    (p % LEVEL1_SLICE_SIZE ∈
        h.level1slices.loaded (p / LEVEL1_SLICE_SIZE) LEVEL1_SLICE_SIZE ↔
      p % LEVEL2_SLICE_SIZE ∈
        h.level2slices.loaded (p / LEVEL2_SLICE_SIZE) LEVEL2_SLICE_SIZE) ∧
    (p % LEVEL1_SLICE_SIZE ∈
        h.level1slices.loaded (p / LEVEL1_SLICE_SIZE) LEVEL1_SLICE_SIZE →
      p ∈ h.evict_queue)

/-- A heuristic state satisfying `HeuristicsInv` whose queue holds page 0
twice (head and tail) among 32769 entries: pages 0..32767 are resident in
both level maps. -/
def evictDupState : PageHeuristics :=
  ⟨fun j => if j < 512 then some ⟨Finset.range 64, 64⟩ else none,
   fun j => if j < 4 then some ⟨Finset.range 8192, 8192⟩ else none,
   (0 :: List.range' 1 32767) ++ [0]⟩

/-- A heuristic state in which level-1 slice 0 misses only page 0 and
level-2 slice 0 misses only page 0: the next fault on page 0 would fill
both slices. -/
def readaheadCounterState : PageHeuristics :=
  ⟨fun j => if j = 0 then some ⟨Finset.Icc 1 63, 64⟩ else none,
   fun j => if j = 0 then some ⟨Finset.Icc 1 8191, 8192⟩ else none,
   []⟩

/-! ## Slice-map membership lemmas -/

lemma mem_loaded_adjust_add (m : SliceMap) (key sz r j x : Nat) :
    x ∈ (m.adjust key sz (fun s => s.add_page r)).loaded j sz ↔
      (j = key ∧ x = r) ∨ x ∈ m.loaded j sz := by
  unfold SliceMap.adjust SliceMap.loaded SliceMap.get_or Slice.add_page
  by_cases hj : j = key
  · subst hj
    simp [Finset.mem_insert]
  · simp [hj]

lemma mem_loaded_adjust_remove (m : SliceMap) (key sz r j x : Nat) :
    x ∈ (m.adjust key sz (fun s => s.remove_page r)).loaded j sz ↔
      x ∈ m.loaded j sz ∧ ¬(j = key ∧ x = r) := by
  unfold SliceMap.adjust SliceMap.loaded SliceMap.get_or Slice.remove_page
  by_cases hj : j = key
  · subst hj
    simp [Finset.mem_erase]
    tauto
  · simp [hj]

/-! ## Eviction loop characterization -/

lemma evictOne_cons (h : PageHeuristics) (acc : Finset Nat) (p : Nat)
    (rest : List Nat) (hq : h.evict_queue = p :: rest) :
    h.evictOne acc =
      ({ level1slices := h.level1slices.adjust (p / LEVEL1_SLICE_SIZE)
           LEVEL1_SLICE_SIZE (fun s => s.remove_page (p % LEVEL1_SLICE_SIZE))
         level2slices := h.level2slices.adjust (p / LEVEL2_SLICE_SIZE)
           LEVEL2_SLICE_SIZE (fun s => s.remove_page (p % LEVEL2_SLICE_SIZE))
         evict_queue := rest }, insert p acc) := by
  unfold PageHeuristics.evictOne
  rw [hq]

lemma evictLoop_succ_eq (k : Nat) (h : PageHeuristics) (acc : Finset Nat)
    (p : Nat) (rest : List Nat) (hq : h.evict_queue = p :: rest) :
    PageHeuristics.evictLoop (k + 1) h acc
      = PageHeuristics.evictLoop k
          ⟨h.level1slices.adjust (p / LEVEL1_SLICE_SIZE) LEVEL1_SLICE_SIZE
             (fun s => s.remove_page (p % LEVEL1_SLICE_SIZE)),
           h.level2slices.adjust (p / LEVEL2_SLICE_SIZE) LEVEL2_SLICE_SIZE
             (fun s => s.remove_page (p % LEVEL2_SLICE_SIZE)),
           rest⟩ (insert p acc) := by
  simp only [PageHeuristics.evictLoop, evictOne_cons h acc p rest hq]

/-- Full characterization of `evictLoop k` when the queue holds at least
`k` entries: the first `k` entries are popped, accumulated into the set,
and their residues removed from both level maps. -/
lemma evictLoop_spec (k : Nat) :
    ∀ (h : PageHeuristics) (acc : Finset Nat), k ≤ h.evict_queue.length →
      (PageHeuristics.evictLoop k h acc).1.evict_queue
          = h.evict_queue.drop k ∧
      (PageHeuristics.evictLoop k h acc).2
          = acc ∪ (h.evict_queue.take k).toFinset ∧
      (∀ j x,
        x ∈ (PageHeuristics.evictLoop k h acc).1.level1slices.loaded j
            LEVEL1_SLICE_SIZE ↔
          x ∈ h.level1slices.loaded j LEVEL1_SLICE_SIZE ∧
            ∀ p ∈ h.evict_queue.take k,
              ¬(p / LEVEL1_SLICE_SIZE = j ∧ p % LEVEL1_SLICE_SIZE = x)) ∧
      (∀ j x,
        x ∈ (PageHeuristics.evictLoop k h acc).1.level2slices.loaded j
            LEVEL2_SLICE_SIZE ↔
          x ∈ h.level2slices.loaded j LEVEL2_SLICE_SIZE ∧
            ∀ p ∈ h.evict_queue.take k,
              ¬(p / LEVEL2_SLICE_SIZE = j ∧ p % LEVEL2_SLICE_SIZE = x)) := by
  induction k with
  | zero =>
    intro h acc _
    simp [PageHeuristics.evictLoop]
  | succ k ih =>
    intro h acc hk
    cases hq : h.evict_queue with
    | nil =>
      rw [hq] at hk
      simp at hk
    | cons p rest =>
      have hrest : k ≤ rest.length := by
        rw [hq] at hk
        simpa using hk
      rw [evictLoop_succ_eq k h acc p rest hq]
      obtain ⟨ihq, ihacc, ihl1, ihl2⟩ :=
        ih ⟨h.level1slices.adjust (p / LEVEL1_SLICE_SIZE) LEVEL1_SLICE_SIZE
              (fun s => s.remove_page (p % LEVEL1_SLICE_SIZE)),
            h.level2slices.adjust (p / LEVEL2_SLICE_SIZE) LEVEL2_SLICE_SIZE
              (fun s => s.remove_page (p % LEVEL2_SLICE_SIZE)),
            rest⟩ (insert p acc) hrest
      dsimp only at ihq ihacc ihl1 ihl2
      refine ⟨?_, ?_, ?_, ?_⟩
      · rw [ihq]
        rfl
      · rw [ihacc]
        simp only [List.take_succ_cons, List.toFinset_cons]
        ext y
        simp only [Finset.mem_union, Finset.mem_insert]
        tauto
      · intro j x
        rw [ihl1 j x, mem_loaded_adjust_remove]
        simp only [List.take_succ_cons, List.forall_mem_cons]
        constructor
        · rintro ⟨⟨hmem, hne⟩, hrest'⟩
          exact ⟨hmem, fun hc => hne ⟨hc.1.symm, hc.2.symm⟩, hrest'⟩
        · rintro ⟨hmem, hne, hrest'⟩
          exact ⟨⟨hmem, fun hc => hne ⟨hc.1.symm, hc.2.symm⟩⟩, hrest'⟩
      · intro j x
        rw [ihl2 j x, mem_loaded_adjust_remove]
        simp only [List.take_succ_cons, List.forall_mem_cons]
        constructor
        · rintro ⟨⟨hmem, hne⟩, hrest'⟩
          exact ⟨hmem, fun hc => hne ⟨hc.1.symm, hc.2.symm⟩, hrest'⟩
        · rintro ⟨hmem, hne, hrest'⟩
          exact ⟨⟨hmem, fun hc => hne ⟨hc.1.symm, hc.2.symm⟩⟩, hrest'⟩

/-! ## Rounding lemmas -/

lemma round_up_mod (n : Nat) :
    round_up_to_pagesize n % PAGESIZE_USIZE = 0 := by
  unfold round_up_to_pagesize
  split_ifs with hmod
  · exact hmod
  · simp only [PAGESIZE_USIZE] at *
    omega

lemma round_up_idem (n : Nat) :
    round_up_to_pagesize (round_up_to_pagesize n) = round_up_to_pagesize n := by
  have h := round_up_mod n
  conv_lhs => rw [round_up_to_pagesize]
  rw [if_pos h]

/-! ## Dummy iterator lemmas (C7, C8) -/

lemma dummyIterBytes_aux (msz offset : Nat) (hm : msz % PAGESIZE_USIZE = 0) :
    ∀ (n cursor : Nat), msz - cursor ≤ n → cursor % PAGESIZE_USIZE = 0 →
      (dummyIterBytes msz offset cursor).flatten.length = msz - cursor ∧
      (∀ i < msz - cursor,
        (dummyIterBytes msz offset cursor).flatten.getD i 0
          = ((cursor + i + offset) * 13) % 256) := by
  intro n
  induction n with
  | zero =>
    intro cursor h0 _
    rw [dummyIterBytes, if_neg (by omega)]
    refine ⟨?_, ?_⟩
    · simp
      omega
    · intro i hi
      omega
  | succ n ih =>
    intro cursor hle hc
    by_cases hlt : cursor < msz
    · have hc' : (cursor + PAGESIZE_USIZE) % PAGESIZE_USIZE = 0 := by
        simp only [PAGESIZE_USIZE] at hc ⊢
        omega
      have hle' : msz - (cursor + PAGESIZE_USIZE) ≤ n := by
        simp only [PAGESIZE_USIZE] at *
        omega
      have hcb : cursor + PAGESIZE_USIZE ≤ msz := by
        simp only [PAGESIZE_USIZE] at *
        omega
      obtain ⟨ihlen, ihval⟩ := ih (cursor + PAGESIZE_USIZE) hle' hc'
      rw [dummyIterBytes, if_pos hlt, List.flatten_cons]
      refine ⟨?_, ?_⟩
      · rw [List.length_append, ihlen]
        simp only [List.length_map, List.length_range, PAGESIZE_USIZE] at *
        omega
      · intro i hi
        by_cases hsm : i < PAGESIZE_USIZE
        · rw [List.getD_append _ _ 0 i (by simpa using hsm)]
          rw [List.getD_eq_getElem _ 0 (by simpa using hsm)]
          simp
        · push_neg at hsm
          rw [List.getD_append_right _ _ 0 i (by simpa using hsm)]
          simp only [List.length_map, List.length_range]
          rw [ihval (i - PAGESIZE_USIZE) (by simp only [PAGESIZE_USIZE] at *; omega)]
          have harg : cursor + PAGESIZE_USIZE + (i - PAGESIZE_USIZE) = cursor + i := by
            simp only [PAGESIZE_USIZE] at *
            omega
          rw [harg]
    · rw [dummyIterBytes, if_neg hlt]
      refine ⟨?_, ?_⟩
      · simp
        omega
      · intro i hi
        omega

lemma dummyIterViews_mem (base msz : Nat) :
    ∀ (n cursor : Nat), msz - cursor ≤ n →
      ∀ v ∈ dummyIterViews base msz cursor,
        v.do_unmap = false ∧ v.mmapped_size = PAGESIZE_USIZE ∧
          base ≤ v.vehicle_page ∧ v.vehicle_page < base + msz := by
  intro n
  induction n with
  | zero =>
    intro cursor h0 v hv
    rw [dummyIterViews, if_neg (by omega)] at hv
    simp at hv
  | succ n ih =>
    intro cursor hle v hv
    by_cases hlt : cursor < msz
    · rw [dummyIterViews, if_pos hlt] at hv
      rcases List.mem_cons.mp hv with rfl | hv'
      · refine ⟨rfl, rfl, ?_, ?_⟩
        · dsimp only
          omega
        · dsimp only
          omega
      · exact ih (cursor + PAGESIZE_USIZE)
          (by simp only [PAGESIZE_USIZE] at *; omega) v hv'
    · rw [dummyIterViews, if_neg hlt] at hv
      simp at hv

lemma dummyIterViews_eval :
    dummyIterViews 0 8192 0 = [⟨0, 4096, false⟩, ⟨4096, 4096, false⟩] := by
  rw [dummyIterViews, if_pos (by norm_num)]
  rw [show (0 : Nat) + PAGESIZE_USIZE = 4096 from by norm_num [PAGESIZE_USIZE]]
  rw [dummyIterViews, if_pos (by norm_num)]
  rw [show (4096 : Nat) + PAGESIZE_USIZE = 8192 from by norm_num [PAGESIZE_USIZE]]
  rw [dummyIterViews, if_neg (by norm_num)]
  norm_num [PAGESIZE_USIZE]

lemma evictDupState_queue_mem (p : Nat) :
    p ∈ evictDupState.evict_queue ↔ p < 32768 := by
  simp only [evictDupState, List.mem_append, List.mem_cons,
    List.mem_singleton, List.mem_range'_1, List.not_mem_nil, or_false]
  omega

lemma evictDupState_l1_mem (p : Nat) :
    p % LEVEL1_SLICE_SIZE ∈
        evictDupState.level1slices.loaded (p / LEVEL1_SLICE_SIZE)
          LEVEL1_SLICE_SIZE ↔ p < 32768 := by
  simp only [evictDupState, SliceMap.loaded, SliceMap.get_or, LEVEL1_SLICE_SIZE]
  by_cases hp : p / 64 < 512
  · simp only [hp, if_pos, Option.getD_some, Finset.mem_range]
    omega
  · simp only [hp, if_neg, Option.getD_none, Slice.new,
      Finset.not_mem_empty, false_iff, not_false_iff]
    omega

lemma evictDupState_l2_mem (p : Nat) :
    p % LEVEL2_SLICE_SIZE ∈
        evictDupState.level2slices.loaded (p / LEVEL2_SLICE_SIZE)
          LEVEL2_SLICE_SIZE ↔ p < 32768 := by
  simp only [evictDupState, SliceMap.loaded, SliceMap.get_or, LEVEL2_SLICE_SIZE]
  by_cases hp : p / 8192 < 4
  · simp only [hp, if_pos, Option.getD_some, Finset.mem_range]
    omega
  · simp only [hp, if_neg, Option.getD_none, Slice.new,
      Finset.not_mem_empty, false_iff, not_false_iff]
    omega

lemma evictDupState_inv : HeuristicsInv evictDupState := by
  intro p
  rw [evictDupState_l1_mem, evictDupState_l2_mem, evictDupState_queue_mem]
  exact ⟨Iff.rfl, Iff.rfl⟩

lemma evictDupState_queue_eq :
    evictDupState.evict_queue = (0 :: List.range' 1 32767) ++ [0] := rfl

lemma evictDupState_len : evictDupState.evict_queue.length = 32769 := by
  rw [evictDupState_queue_eq, List.length_append, List.length_cons,
    List.length_range']
  norm_num

/-! ## Preservation of the weakened invariant (C5 amended) -/

lemma markPage_l1_mem (h : PageHeuristics) (q p : Nat) :
    p % LEVEL1_SLICE_SIZE ∈
        (h.markPage q).level1slices.loaded (p / LEVEL1_SLICE_SIZE)
          LEVEL1_SLICE_SIZE ↔
      p = q ∨ p % LEVEL1_SLICE_SIZE ∈
        h.level1slices.loaded (p / LEVEL1_SLICE_SIZE) LEVEL1_SLICE_SIZE := by
  unfold PageHeuristics.markPage
  dsimp only
  rw [mem_loaded_adjust_add]
  have hpair : (p / LEVEL1_SLICE_SIZE = q / LEVEL1_SLICE_SIZE ∧
      p % LEVEL1_SLICE_SIZE = q % LEVEL1_SLICE_SIZE) ↔ p = q := by
    simp only [LEVEL1_SLICE_SIZE]
    omega
  rw [hpair]

lemma markPage_l2_mem (h : PageHeuristics) (q p : Nat) :
    p % LEVEL2_SLICE_SIZE ∈
        (h.markPage q).level2slices.loaded (p / LEVEL2_SLICE_SIZE)
          LEVEL2_SLICE_SIZE ↔
      p = q ∨ p % LEVEL2_SLICE_SIZE ∈
        h.level2slices.loaded (p / LEVEL2_SLICE_SIZE) LEVEL2_SLICE_SIZE := by
  unfold PageHeuristics.markPage
  dsimp only
  rw [mem_loaded_adjust_add]
  have hpair : (p / LEVEL2_SLICE_SIZE = q / LEVEL2_SLICE_SIZE ∧
      p % LEVEL2_SLICE_SIZE = q % LEVEL2_SLICE_SIZE) ↔ p = q := by
    simp only [LEVEL2_SLICE_SIZE]
    omega
  rw [hpair]

lemma markPage_preserves (h : PageHeuristics) (q : Nat)
    (hi : HeuristicsInvWeak h) : HeuristicsInvWeak (h.markPage q) := by
  intro p
  obtain ⟨hiff, himp⟩ := hi p
  have hqq : (h.markPage q).evict_queue = h.evict_queue ++ [q] := rfl
  refine ⟨?_, ?_⟩
  · rw [markPage_l1_mem, markPage_l2_mem, hiff]
  · rw [markPage_l1_mem, hqq]
    rintro (rfl | hmem)
    · simp
    · exact List.mem_append.mpr (Or.inl (himp hmem))

lemma foldl_markPage_preserves (l : List Nat) :
    ∀ h : PageHeuristics, HeuristicsInvWeak h →
      HeuristicsInvWeak (l.foldl PageHeuristics.markPage h) := by
  induction l with
  | nil => exact fun h hi => hi
  | cons a l ih => exact fun h hi => ih _ (markPage_preserves h a hi)

lemma evict_preserves_weak (h : PageHeuristics) (hi : HeuristicsInvWeak h) :
    HeuristicsInvWeak h.evict_pages_if_needed2.1 := by
  unfold PageHeuristics.evict_pages_if_needed2 PageHeuristics.evict_pages_if_needed
  split_ifs with hgt
  · have e1 : MAX_LOADED_PAGES = 32768 := rfl
    have e2 : NUM_PAGES_TO_GO_BELOW_MAX_LOADED_PAGES_ON_EVICT = 500 := rfl
    have hk : h.evict_queue.length - MAX_LOADED_PAGES
        + NUM_PAGES_TO_GO_BELOW_MAX_LOADED_PAGES_ON_EVICT
        ≤ h.evict_queue.length := by omega
    obtain ⟨hq, -, hl1, hl2⟩ := evictLoop_spec _ h ∅ hk
    intro p
    obtain ⟨hiff, himp⟩ := hi p
    have hpair1 : ∀ r : Nat,
        (r / LEVEL1_SLICE_SIZE = p / LEVEL1_SLICE_SIZE ∧
          r % LEVEL1_SLICE_SIZE = p % LEVEL1_SLICE_SIZE) ↔ r = p := by
      intro r
      simp only [LEVEL1_SLICE_SIZE]
      omega
    have hpair2 : ∀ r : Nat,
        (r / LEVEL2_SLICE_SIZE = p / LEVEL2_SLICE_SIZE ∧
          r % LEVEL2_SLICE_SIZE = p % LEVEL2_SLICE_SIZE) ↔ r = p := by
      intro r
      simp only [LEVEL2_SLICE_SIZE]
      omega
    have htake1 : (∀ r ∈ h.evict_queue.take (h.evict_queue.length
          - MAX_LOADED_PAGES + NUM_PAGES_TO_GO_BELOW_MAX_LOADED_PAGES_ON_EVICT),
        ¬(r / LEVEL1_SLICE_SIZE = p / LEVEL1_SLICE_SIZE ∧
          r % LEVEL1_SLICE_SIZE = p % LEVEL1_SLICE_SIZE)) ↔
        p ∉ h.evict_queue.take (h.evict_queue.length - MAX_LOADED_PAGES
          + NUM_PAGES_TO_GO_BELOW_MAX_LOADED_PAGES_ON_EVICT) := by
      constructor
      · intro hall hp
        exact hall p hp ⟨rfl, rfl⟩
      · intro hnp r hr hc
        rw [(hpair1 r).mp hc] at hr
        exact hnp hr
    have htake2 : (∀ r ∈ h.evict_queue.take (h.evict_queue.length
          - MAX_LOADED_PAGES + NUM_PAGES_TO_GO_BELOW_MAX_LOADED_PAGES_ON_EVICT),
        ¬(r / LEVEL2_SLICE_SIZE = p / LEVEL2_SLICE_SIZE ∧
          r % LEVEL2_SLICE_SIZE = p % LEVEL2_SLICE_SIZE)) ↔
        p ∉ h.evict_queue.take (h.evict_queue.length - MAX_LOADED_PAGES
          + NUM_PAGES_TO_GO_BELOW_MAX_LOADED_PAGES_ON_EVICT) := by
      constructor
      · intro hall hp
        exact hall p hp ⟨rfl, rfl⟩
      · intro hnp r hr hc
        rw [(hpair2 r).mp hc] at hr
        exact hnp hr
    refine ⟨?_, ?_⟩
    · rw [hl1, hl2, htake1, htake2, hiff]
    · rw [hl1, hq, htake1]
      rintro ⟨hmem, hnp⟩
      have hpq : p ∈ h.evict_queue := himp hmem
      rw [← List.take_append_drop (h.evict_queue.length - MAX_LOADED_PAGES
        + NUM_PAGES_TO_GO_BELOW_MAX_LOADED_PAGES_ON_EVICT) h.evict_queue]
        at hpq
      rcases List.mem_append.mp hpq with hp | hp
      · exact absurd hp hnp
      · exact hp
  · exact hi

/-! ## Read-ahead size bounds (C3) -/

lemma roundup_slice1_le (o s : Nat) :
    roundup_slice1 o s ≤ s + 63 * PAGESIZE_USIZE := by
  simp only [roundup_slice1, LEVEL1_SLICE_SIZE, PAGESIZE_USIZE]
  split_ifs <;> omega

lemma extend_readahead1_le (o : Nat) :
    extend_readahead1 o PAGESIZE_USIZE
      ≤ LEVEL1_READAHEAD * LEVEL1_SLICE_SIZE * PAGESIZE_USIZE
        + 63 * PAGESIZE_USIZE := by
  simp only [extend_readahead1, LEVEL1_READAHEAD, LEVEL1_SLICE_SIZE,
    LEVEL2_SLICE_SIZE, PAGESIZE_USIZE]
  split_ifs with h1 h2 h3
  · omega
  · omega
  · have := roundup_slice1_le o (16 * 64 * 4096)
    simp only [PAGESIZE_USIZE] at this
    omega
  · have := roundup_slice1_le o (16 * 64 * 4096)
    simp only [PAGESIZE_USIZE] at this
    omega

/-- Every ioctl the retry loop issues carries the identical arguments. -/
lemma copy_loop_issued_args (args : uffdio_copy) (tr : List (Option Nat)) :
    ∀ c ∈ (copy_loop args tr).1, c = args := by
  induction tr with
  | nil => simp [copy_loop]
  | cons r rest ih =>
    cases r with
    | none =>
      simp only [copy_loop, List.mem_cons]
      rintro c (rfl | hc)
      · rfl
      · exact ih c hc
    | some e =>
      simp only [copy_loop]
      split_ifs with h1 h2 <;> simp only [List.mem_cons, List.not_mem_nil, or_false]
      · rintro c (rfl | hc)
        · rfl
        · exact ih c hc
      · rintro c rfl; rfl
      · rintro c rfl; rfl

/-- C2: `roundup_slice1` agrees with the spec's case definition and with the
four unit-test values. -/
theorem roundup_slice1_matches_spec (offset sz : Nat) (h : 1 ≤ offset + sz) :
    roundup_slice1 offset sz = roundup_slice1_specModel offset sz ∧
    roundup_slice1 0 4096 = 4096 * 63 ∧
    roundup_slice1 4096 4096 = 4096 * 62 ∧
    roundup_slice1 1111 4096 = 4096 * 62 ∧
    roundup_slice1 (64 * 4096) 4096 = 4096 * 63 := by
  refine ⟨rfl, ?_, ?_, ?_, ?_⟩ <;> decide

/-- Witness for C2 at offset 0, size 4096. -/
theorem roundup_slice1_matches_spec_witness :
    1 ≤ 0 + 4096 ∧
      (roundup_slice1 0 4096 = roundup_slice1_specModel 0 4096 ∧
        roundup_slice1 0 4096 = 4096 * 63 ∧
        roundup_slice1 4096 4096 = 4096 * 62 ∧
        roundup_slice1 1111 4096 = 4096 * 62 ∧
        roundup_slice1 (64 * 4096) 4096 = 4096 * 63) :=
  ⟨by decide, roundup_slice1_matches_spec 0 4096 (by decide)⟩

/-- C4: `evict_pages_if_needed2` pops entries from the queue head until
its length is `MAX_LOADED_PAGES - 500` whenever the queue exceeds
`MAX_LOADED_PAGES = 32768` entries, drops each popped page's residues
from both level maps, and returns exactly the set of popped indices;
otherwise it returns the empty set and leaves the state unchanged. -/
theorem evict_pages_if_needed_behavior (h : PageHeuristics) :
    MAX_LOADED_PAGES = 32768 ∧
    NUM_PAGES_TO_GO_BELOW_MAX_LOADED_PAGES_ON_EVICT = 500 ∧
    (h.evict_queue.length ≤ MAX_LOADED_PAGES →
      h.evict_pages_if_needed2 = (h, ∅)) ∧
    (MAX_LOADED_PAGES < h.evict_queue.length →
      h.evict_pages_if_needed2.1.evict_queue
          = h.evict_queue.drop (h.evict_queue.length - MAX_LOADED_PAGES
              + NUM_PAGES_TO_GO_BELOW_MAX_LOADED_PAGES_ON_EVICT) ∧
      h.evict_pages_if_needed2.1.evict_queue.length
          = MAX_LOADED_PAGES - NUM_PAGES_TO_GO_BELOW_MAX_LOADED_PAGES_ON_EVICT ∧
      h.evict_pages_if_needed2.2
          = (h.evict_queue.take (h.evict_queue.length - MAX_LOADED_PAGES
              + NUM_PAGES_TO_GO_BELOW_MAX_LOADED_PAGES_ON_EVICT)).toFinset ∧
      (∀ j x,
        x ∈ h.evict_pages_if_needed2.1.level1slices.loaded j LEVEL1_SLICE_SIZE ↔
          x ∈ h.level1slices.loaded j LEVEL1_SLICE_SIZE ∧
            ∀ p ∈ h.evict_queue.take (h.evict_queue.length - MAX_LOADED_PAGES
                + NUM_PAGES_TO_GO_BELOW_MAX_LOADED_PAGES_ON_EVICT),
              ¬(p / LEVEL1_SLICE_SIZE = j ∧ p % LEVEL1_SLICE_SIZE = x)) ∧
      (∀ j x,
        x ∈ h.evict_pages_if_needed2.1.level2slices.loaded j LEVEL2_SLICE_SIZE ↔
          x ∈ h.level2slices.loaded j LEVEL2_SLICE_SIZE ∧
            ∀ p ∈ h.evict_queue.take (h.evict_queue.length - MAX_LOADED_PAGES
                + NUM_PAGES_TO_GO_BELOW_MAX_LOADED_PAGES_ON_EVICT),
              ¬(p / LEVEL2_SLICE_SIZE = j ∧ p % LEVEL2_SLICE_SIZE = x))) := by
  have e1 : MAX_LOADED_PAGES = 32768 := rfl
  have e2 : NUM_PAGES_TO_GO_BELOW_MAX_LOADED_PAGES_ON_EVICT = 500 := rfl
  refine ⟨e1, e2, ?_, ?_⟩
  · intro hle
    unfold PageHeuristics.evict_pages_if_needed2 PageHeuristics.evict_pages_if_needed
    rw [if_neg (by omega)]
  · intro hgt
    have hk : h.evict_queue.length - MAX_LOADED_PAGES
        + NUM_PAGES_TO_GO_BELOW_MAX_LOADED_PAGES_ON_EVICT
        ≤ h.evict_queue.length := by omega
    have hunf : h.evict_pages_if_needed2
        = PageHeuristics.evictLoop (h.evict_queue.length - MAX_LOADED_PAGES
            + NUM_PAGES_TO_GO_BELOW_MAX_LOADED_PAGES_ON_EVICT) h ∅ := by
      unfold PageHeuristics.evict_pages_if_needed2 PageHeuristics.evict_pages_if_needed
      rw [if_pos hgt]
    obtain ⟨hq, hacc, hl1, hl2⟩ := evictLoop_spec _ h ∅ hk
    rw [hunf]
    refine ⟨hq, ?_, ?_, hl1, hl2⟩
    · rw [hq, List.length_drop]
      omega
    · rw [hacc]
      exact Finset.empty_union _

/-- Witness for C4: the eviction branch applied to `evictTriggerState`. -/
theorem evict_pages_if_needed_behavior_witness :
    MAX_LOADED_PAGES < evictTriggerState.evict_queue.length ∧
    (evictTriggerState.evict_pages_if_needed2.1.evict_queue
        = evictTriggerState.evict_queue.drop
            (evictTriggerState.evict_queue.length - MAX_LOADED_PAGES
              + NUM_PAGES_TO_GO_BELOW_MAX_LOADED_PAGES_ON_EVICT) ∧
      evictTriggerState.evict_pages_if_needed2.1.evict_queue.length
          = MAX_LOADED_PAGES - NUM_PAGES_TO_GO_BELOW_MAX_LOADED_PAGES_ON_EVICT ∧
      evictTriggerState.evict_pages_if_needed2.2
          = (evictTriggerState.evict_queue.take
              (evictTriggerState.evict_queue.length - MAX_LOADED_PAGES
                + NUM_PAGES_TO_GO_BELOW_MAX_LOADED_PAGES_ON_EVICT)).toFinset ∧
      (∀ j x,
        x ∈ evictTriggerState.evict_pages_if_needed2.1.level1slices.loaded j
            LEVEL1_SLICE_SIZE ↔
          x ∈ evictTriggerState.level1slices.loaded j LEVEL1_SLICE_SIZE ∧
            ∀ p ∈ evictTriggerState.evict_queue.take
                (evictTriggerState.evict_queue.length - MAX_LOADED_PAGES
                  + NUM_PAGES_TO_GO_BELOW_MAX_LOADED_PAGES_ON_EVICT),
              ¬(p / LEVEL1_SLICE_SIZE = j ∧ p % LEVEL1_SLICE_SIZE = x)) ∧
      (∀ j x,
        x ∈ evictTriggerState.evict_pages_if_needed2.1.level2slices.loaded j
            LEVEL2_SLICE_SIZE ↔
          x ∈ evictTriggerState.level2slices.loaded j LEVEL2_SLICE_SIZE ∧
            ∀ p ∈ evictTriggerState.evict_queue.take
                (evictTriggerState.evict_queue.length - MAX_LOADED_PAGES
                  + NUM_PAGES_TO_GO_BELOW_MAX_LOADED_PAGES_ON_EVICT),
              ¬(p / LEVEL2_SLICE_SIZE = j ∧ p % LEVEL2_SLICE_SIZE = x))) :=
  ⟨by simp [evictTriggerState, MAX_LOADED_PAGES, List.length_range],
   (evict_pages_if_needed_behavior evictTriggerState).2.2.2
     (by simp [evictTriggerState, MAX_LOADED_PAGES, List.length_range])⟩

set_option maxRecDepth 4000 in
/-- C5 counterexample: `evictDupState` satisfies the claimed invariant,
yet after `evict_pages_if_needed2` the invariant is broken: the popped
head copy of page 0 removes page 0 from both level maps while the tail
copy keeps 0 in the queue. -/
theorem heuristics_inv_not_preserved_by_evict :
    HeuristicsInv evictDupState ∧
    ¬ HeuristicsInv evictDupState.evict_pages_if_needed2.1 := by
  refine ⟨evictDupState_inv, ?_⟩
  intro hInv
  have hgt : MAX_LOADED_PAGES < evictDupState.evict_queue.length := by
    rw [evictDupState_len]
    norm_num [MAX_LOADED_PAGES]
  have hcount : evictDupState.evict_queue.length - MAX_LOADED_PAGES
      + NUM_PAGES_TO_GO_BELOW_MAX_LOADED_PAGES_ON_EVICT = 501 := by
    rw [evictDupState_len]
    norm_num [MAX_LOADED_PAGES, NUM_PAGES_TO_GO_BELOW_MAX_LOADED_PAGES_ON_EVICT]
  have hunf : evictDupState.evict_pages_if_needed2
      = PageHeuristics.evictLoop 501 evictDupState ∅ := by
    unfold PageHeuristics.evict_pages_if_needed2 PageHeuristics.evict_pages_if_needed
    rw [if_pos hgt, hcount]
  obtain ⟨hq, -, hl1, -⟩ := evictLoop_spec 501 evictDupState ∅
    (by rw [evictDupState_len]; norm_num)
  rw [hunf] at hInv
  obtain ⟨-, hiff⟩ := hInv 0
  have hlen' : (501 : Nat) ≤ (0 :: List.range' 1 32767).length := by
    rw [List.length_cons, List.length_range']
    norm_num
  have h0q : (0 : Nat) ∈
      (PageHeuristics.evictLoop 501 evictDupState ∅).1.evict_queue := by
    rw [hq, evictDupState_queue_eq, List.drop_append_of_le_length hlen']
    simp
  have h0take : (0 : Nat) ∈ evictDupState.evict_queue.take 501 := by
    rw [evictDupState_queue_eq, List.take_append_of_le_length hlen']
    show (0 : Nat) ∈ List.take (500 + 1) (0 :: List.range' 1 32767)
    rw [List.take_succ_cons]
    exact List.mem_cons_self 0 _
  have h0l1 : ¬ ((0 : Nat) % LEVEL1_SLICE_SIZE ∈
      (PageHeuristics.evictLoop 501 evictDupState ∅).1.level1slices.loaded
        (0 / LEVEL1_SLICE_SIZE) LEVEL1_SLICE_SIZE) := by
    rw [hl1]
    rintro ⟨-, hall⟩
    exact hall 0 h0take ⟨rfl, rfl⟩
  exact h0l1 (hiff.mpr h0q)

/-- C5 (amended): the two level maps stay synchronized with each other,
and membership in them implies presence in the EvictionQueue; this holds
initially and is preserved by `mark_pages_as_read` and
`evict_pages_if_needed2`. (The converse queue-to-maps direction fails
when the queue holds duplicates, see the counterexample.) -/
theorem heuristics_weak_invariant_preserved :
    HeuristicsInvWeak PageHeuristics.new ∧
    (∀ (h : PageHeuristics) (s e : Nat), HeuristicsInvWeak h →
      HeuristicsInvWeak (h.mark_pages_as_read s e)) ∧
    (∀ h : PageHeuristics, HeuristicsInvWeak h →
      HeuristicsInvWeak h.evict_pages_if_needed2.1) := by
  refine ⟨?_, ?_, fun h hi => evict_preserves_weak h hi⟩
  · intro p
    constructor
    · simp [PageHeuristics.new, SliceMap.loaded, SliceMap.get_or, Slice.new]
    · simp [PageHeuristics.new, SliceMap.loaded, SliceMap.get_or, Slice.new]
  · intro h s e hi
    exact foldl_markPage_preserves _ h hi

/-- Witness for C5 (amended): preservation applied to the initial state
marked with pages 0 and 1. -/
theorem heuristics_weak_invariant_preserved_witness :
    HeuristicsInvWeak (PageHeuristics.new.mark_pages_as_read 0 2) :=
  heuristics_weak_invariant_preserved.2.1 PageHeuristics.new 0 2
    heuristics_weak_invariant_preserved.1

/-- C3 (amended): with the one-page minimum read, the recommendation is
bounded by `max(LEVEL1_READAHEAD·LEVEL1_SLICE, LEVEL2_READAHEAD·LEVEL2_SLICE)
· page_size` plus the up-to-63-page slack `roundup_slice1` may add, for
every heuristic state and fault offset. -/
theorem readahead_heuristic_bounded (h : PageHeuristics) (offset : Nat) :
    (h.readahead_heuristic offset PAGESIZE_USIZE).1
      ≤ max (LEVEL1_READAHEAD * LEVEL1_SLICE_SIZE)
            (LEVEL2_READAHEAD * LEVEL2_SLICE_SIZE) * PAGESIZE_USIZE
        + 63 * PAGESIZE_USIZE := by
  have hrhs : max (LEVEL1_READAHEAD * LEVEL1_SLICE_SIZE)
      (LEVEL2_READAHEAD * LEVEL2_SLICE_SIZE) * PAGESIZE_USIZE
      + 63 * PAGESIZE_USIZE = 67366912 := by decide
  rw [hrhs]
  have hext : extend_readahead1 offset 4096 ≤ 4452352 := by
    have := extend_readahead1_le offset
    simp only [LEVEL1_READAHEAD, LEVEL1_SLICE_SIZE, PAGESIZE_USIZE] at this
    omega
  have hru : ∀ s : Nat, s ≤ 67108864 →
      roundup_slice1 offset (max s 67108864) ≤ 67366912 := by
    intro s hs
    rw [Nat.max_eq_right hs]
    have := roundup_slice1_le offset 67108864
    simp only [PAGESIZE_USIZE] at this
    omega
  simp only [PageHeuristics.readahead_heuristic, PAGESIZE_USIZE,
    LEVEL1_SLICE_SIZE, LEVEL2_SLICE_SIZE, LEVEL1_READAHEAD, LEVEL2_READAHEAD]
  have hL2 : (2 : Nat) * 8192 * 4096 = 67108864 := by norm_num
  rw [hL2]
  by_cases hw2 : (h.level2slices.get_or (offset / 4096 / 8192) 8192).would_fill
      (offset / 4096 % 8192) = true
  · rw [if_pos hw2]
    by_cases hw1 : (h.level1slices.get_or (offset / 4096 / 64) 64).would_fill
        (offset / 4096 % 64) = true
    · rw [if_pos hw1]
      exact hru _ (by omega)
    · rw [if_neg hw1]
      exact hru _ (by omega)
  · rw [if_neg hw2]
    by_cases hw1 : (h.level1slices.get_or (offset / 4096 / 64) 64).would_fill
        (offset / 4096 % 64) = true
    · rw [if_pos hw1]
      omega
    · rw [if_neg hw1]
      omega

/-- C3 counterexample: in `readaheadCounterState`, a fault at offset 0
yields the recommendation 67366912 bytes, which exceeds the claimed bound
`max(16·64, 2·8192)·4096 = 67108864`. -/
theorem readahead_heuristic_exceeds_claimed_bound :
    (readaheadCounterState.readahead_heuristic 0 PAGESIZE_USIZE).1
        = 67366912 ∧
    ¬ (readaheadCounterState.readahead_heuristic 0 PAGESIZE_USIZE).1
        ≤ max (LEVEL1_READAHEAD * LEVEL1_SLICE_SIZE)
              (LEVEL2_READAHEAD * LEVEL2_SLICE_SIZE) * PAGESIZE_USIZE := by
  have hwf1 : (Slice.mk (Finset.Icc 1 63) 64).would_fill 0 = true := by
    simp [Slice.would_fill, Nat.card_Icc]
  have hwf2 : (Slice.mk (Finset.Icc 1 8191) 8192).would_fill 0 = true := by
    simp [Slice.would_fill, Nat.card_Icc]
  have hval : (readaheadCounterState.readahead_heuristic 0 PAGESIZE_USIZE).1
      = 67366912 := by
    simp only [PageHeuristics.readahead_heuristic, readaheadCounterState,
      SliceMap.get_or, PAGESIZE_USIZE, LEVEL1_SLICE_SIZE, LEVEL2_SLICE_SIZE,
      LEVEL1_READAHEAD, LEVEL2_READAHEAD]
    norm_num [hwf1, hwf2, extend_readahead1, roundup_slice1,
      LEVEL1_SLICE_SIZE, LEVEL2_SLICE_SIZE, LEVEL1_READAHEAD, PAGESIZE_USIZE]
  refine ⟨hval, ?_⟩
  rw [hval]
  decide

/-- C1: evaluating the install loop on a two-page batch faulting at
address 8192 shows that both `UFFDIO_COPY` calls carry `dst = 8192`; the
destination does not advance to `8192 + 4096` for the second page. -/
theorem pagefault_copy_dst_never_advances :
    (pagefault_copy_args 8192
        [⟨1000, 4096, true⟩, ⟨1000 + 4096, 4096, false⟩]).map uffdio_copy.dst
      = [8192, 8192] ∧
    ([8192, 8192] : List Nat) ≠ [8192, 8192 + 4096] := by
  exact ⟨rfl, by decide⟩

/-- C6 (amended): `EAGAIN` is retried with the same arguments, `EEXIST`
ends the page's loop at once (success, no further ioctl for that page),
any other errno panics; but a *successful* copy does not end the loop —
the ioctl is re-issued, so the loop only ever exits through `EEXIST` or a
panic. -/
theorem copy_loop_error_handling (args : uffdio_copy)
    (tr : List (Option Nat)) (e : Nat)
    (hA : e ≠ EAGAIN) (hE : e ≠ EEXIST) :
    copy_loop args (some EAGAIN :: tr)
        = (args :: (copy_loop args tr).1, (copy_loop args tr).2) ∧
    copy_loop args (some EEXIST :: tr) = ([args], .finished tr) ∧
    copy_loop args (some e :: tr) = ([args], .panicked e) ∧
    copy_loop args (none :: tr)
        = (args :: (copy_loop args tr).1, (copy_loop args tr).2) ∧
    (∀ c ∈ (copy_loop args tr).1, c = args) := by
  refine ⟨?_, ?_, ?_, rfl, copy_loop_issued_args args tr⟩
  · simp [copy_loop, EAGAIN, EEXIST]
  · simp [copy_loop, EAGAIN, EEXIST]
  · simp [copy_loop, hA, hE]

/-- Witness for C6 (amended) with errno 22 (`EINVAL`) on the empty trace. -/
theorem copy_loop_error_handling_witness :
    (22 : Nat) ≠ EAGAIN ∧ (22 : Nat) ≠ EEXIST ∧
    (copy_loop ⟨0, 1000, 4096, 0, 0⟩ (some EAGAIN :: [])
        = (⟨0, 1000, 4096, 0, 0⟩ :: (copy_loop ⟨0, 1000, 4096, 0, 0⟩ []).1,
           (copy_loop ⟨0, 1000, 4096, 0, 0⟩ []).2) ∧
      copy_loop ⟨0, 1000, 4096, 0, 0⟩ (some EEXIST :: [])
        = ([⟨0, 1000, 4096, 0, 0⟩], .finished []) ∧
      copy_loop ⟨0, 1000, 4096, 0, 0⟩ (some 22 :: [])
        = ([⟨0, 1000, 4096, 0, 0⟩], .panicked 22) ∧
      copy_loop ⟨0, 1000, 4096, 0, 0⟩ (none :: [])
        = (⟨0, 1000, 4096, 0, 0⟩ :: (copy_loop ⟨0, 1000, 4096, 0, 0⟩ []).1,
           (copy_loop ⟨0, 1000, 4096, 0, 0⟩ []).2) ∧
      (∀ c ∈ (copy_loop ⟨0, 1000, 4096, 0, 0⟩ []).1, c = ⟨0, 1000, 4096, 0, 0⟩)) :=
  ⟨by decide, by decide,
   copy_loop_error_handling ⟨0, 1000, 4096, 0, 0⟩ [] 22 (by decide) (by decide)⟩

/-- C6 counterexample: after a successful copy (trace `[ok, errno 22]`)
the loop does not proceed to the next page; it re-issues the ioctl and
panics on the follow-up errno, whereas the claim predicts the loop ends in
success right after the first ioctl. -/
theorem copy_loop_success_does_not_proceed :
    (copy_loop ⟨0, 1000, 4096, 0, 0⟩ [none, some 22]).2
        = CopyLoopResult.panicked 22 ∧
    CopyLoopResult.panicked 22 ≠ .finished [some 22] := by
  exact ⟨rfl, by decide⟩

/-- C7: for a dummy of size `sz` and a fault at offset `offset ≤ sz`
(page-aligned), the yielded one-page buffers total
`round_up(min(sz - offset, heuristic recommendation))` bytes, and the
byte destined for region offset `offset + i` equals
`((offset + i) * 13) mod 256`. -/
theorem dummy_handle_userfault_pattern (h : PageHeuristics)
    (sz offset base : Nat)
    (hal : offset % PAGESIZE_USIZE = 0) (hle : offset ≤ sz) :
    (dummy_handle_userfault h sz offset base).1.flatten.length
        = round_up_to_pagesize
            (min (sz - offset) (h.readahead_heuristic offset PAGESIZE_USIZE).1) ∧
    (∀ i < (dummy_handle_userfault h sz offset base).1.flatten.length,
      (dummy_handle_userfault h sz offset base).1.flatten.getD i 0
        = ((offset + i) * 13) % 256) := by
  unfold dummy_handle_userfault
  dsimp only [MMapPages.new]
  set ars := (h.readahead_heuristic offset PAGESIZE_USIZE).1 with hars
  have hmin : (if offset + ars > sz then sz - offset else ars)
      = min (sz - offset) ars := by
    split_ifs with hgt
    · omega
    · omega
  rw [hmin, round_up_idem]
  set msz := round_up_to_pagesize (min (sz - offset) ars) with hmsz
  obtain ⟨hlen, hval⟩ := dummyIterBytes_aux msz offset (round_up_mod _) msz 0
    (by omega) (by simp [PAGESIZE_USIZE])
  rw [Nat.sub_zero] at hlen hval
  refine ⟨hlen, ?_⟩
  intro i hi
  rw [hlen] at hi
  rw [hval i hi]
  have harg : 0 + i + offset = offset + i := by omega
  rw [harg]

/-- Witness for C7 at the initial heuristic state, size 4096, offset 0. -/
theorem dummy_handle_userfault_pattern_witness :
    (0 : Nat) % PAGESIZE_USIZE = 0 ∧ (0 : Nat) ≤ 4096 ∧
    ((dummy_handle_userfault PageHeuristics.new 4096 0 0).1.flatten.length
        = round_up_to_pagesize (min (4096 - 0)
            (PageHeuristics.new.readahead_heuristic 0 PAGESIZE_USIZE).1) ∧
      (∀ i < (dummy_handle_userfault PageHeuristics.new 4096 0 0).1.flatten.length,
        (dummy_handle_userfault PageHeuristics.new 4096 0 0).1.flatten.getD i 0
          = ((0 + i) * 13) % 256)) :=
  ⟨by decide, by decide,
   dummy_handle_userfault_pattern PageHeuristics.new 4096 0 0
     (by decide) (by decide)⟩

/-- C8 counterexample: for a two-page batch, both yielded views carry
`do_unmap = false`; in particular the first view's flag is not `true`, so
no yielded view owns the backing allocation. -/
theorem dummy_first_view_does_not_own :
    (dummyIterViews 0 8192 0).map MMapPages.do_unmap = [false, false] ∧
    ¬ ((dummyIterViews 0 8192 0).getD 0 ⟨0, 0, false⟩).do_unmap = true := by
  rw [dummyIterViews_eval]
  exact ⟨rfl, by decide⟩

/-- C8 (amended): every view the dummy iterator yields is a borrow
(`do_unmap = false`, one page, inside the backing range); the backing
allocation is owned by the iterator's `base_page` (created with
`do_unmap = true` by `MMapPages::new`), which is never yielded. -/
theorem dummy_views_are_borrows (base msz : Nat) :
    (∀ v ∈ dummyIterViews base msz 0,
      v.do_unmap = false ∧ v.mmapped_size = PAGESIZE_USIZE ∧
        base ≤ v.vehicle_page ∧ v.vehicle_page < base + msz) ∧
    (∀ n b : Nat, (MMapPages.new n b).do_unmap = true) ∧
    (∀ n b : Nat, MMapPages.new n b ∉ dummyIterViews b msz 0) := by
  refine ⟨fun v hv => dummyIterViews_mem base msz msz 0 (by omega) v hv,
    fun n b => rfl, ?_⟩
  intro n b hmem
  have hfalse := (dummyIterViews_mem b msz msz 0 (by omega) _ hmem).1
  simp [MMapPages.new] at hfalse

/-- Witness for C8 (amended), instantiated at the first view of a
two-page batch. -/
theorem dummy_views_are_borrows_witness :
    (⟨0, 4096, false⟩ : MMapPages) ∈ dummyIterViews 0 8192 0 ∧
    ((⟨0, 4096, false⟩ : MMapPages).do_unmap = false ∧
      (⟨0, 4096, false⟩ : MMapPages).mmapped_size = PAGESIZE_USIZE ∧
      0 ≤ (⟨0, 4096, false⟩ : MMapPages).vehicle_page ∧
      (⟨0, 4096, false⟩ : MMapPages).vehicle_page < 0 + 8192) :=
  ⟨by rw [dummyIterViews_eval]; exact List.mem_cons_self _ _,
   (dummy_views_are_borrows 0 8192).1 _
     (by rw [dummyIterViews_eval]; exact List.mem_cons_self _ _)⟩

/-- C9: `len()` is the unrounded handler-reported size, the reserved region
length is `round_up(max(size, 1))`; a size-0 object reserves one page yet
exposes `len() = 0` and an empty byte slice. -/
theorem mmap_len_unrounded_region_rounded :
    (∀ n : Nat, (mmap_with_userfault_sizes n).len = n ∧
      (mmap_with_userfault_sizes n).sz = round_up_to_pagesize (max n 1)) ∧
    (mmap_with_userfault_sizes 0).sz = PAGESIZE_USIZE ∧
    (mmap_with_userfault_sizes 0).len = 0 ∧
    (mmap_with_userfault_sizes 0).as_slice_len 1 = some 0 := by
  refine ⟨fun n => ⟨rfl, ?_⟩, by decide, rfl, by decide⟩
  cases n with
  | zero => rfl
  | succ m =>
    simp only [mmap_with_userfault_sizes, Nat.succ_ne_zero, if_false]
    congr 1
    omega

/-- C10: a registered pointer is removed and 0 returned; an unknown pointer
returns -1 with the registry unchanged; hence a second call on the same
pointer returns -1. -/
theorem munmap_s3_registry_semantics (reg : Registry) (ptr : Nat) :
    (ptr ∈ reg → munmap_s3 reg ptr = (0, reg.erase ptr) ∧
      ptr ∉ (munmap_s3 reg ptr).2) ∧
    (ptr ∉ reg → munmap_s3 reg ptr = (-1, reg)) ∧
    (munmap_s3 (munmap_s3 reg ptr).2 ptr).1 = -1 := by
  unfold munmap_s3
  by_cases hmem : ptr ∈ reg
  · simp [hmem, Finset.not_mem_erase]
  · simp [hmem]

/-- Witness for C10 on the singleton registry `{5}`. -/
theorem munmap_s3_registry_semantics_witness :
    ((5 : Nat) ∈ ({5} : Registry) →
      munmap_s3 {5} 5 = (0, ({5} : Registry).erase 5) ∧
        (5 : Nat) ∉ (munmap_s3 {5} 5).2) ∧
    ((5 : Nat) ∉ ({5} : Registry) → munmap_s3 {5} 5 = (-1, {5})) ∧
    (munmap_s3 (munmap_s3 {5} 5).2 5).1 = -1 :=
  munmap_s3_registry_semantics {5} 5

end Mmapurl
